import Mathlib

/-!
Shallow embedding of `src/main.py`, the mock-data generation layer of the
Trading Bots Monitor API, together with proofs of the specification's
testable properties.

Modelling conventions:
* Python's `random` module is modelled by an abstract stream `g : ℕ → ℕ` of
  raw draws together with a cursor `k : ℕ`; every primitive consumes exactly
  one draw and advances the cursor, mirroring the call order of the source.
* Python floats are modelled as exact rationals `ℚ`; `round(x, d)` becomes
  rounding of `x * 10^d` to the nearest integer (tie-breaking is immaterial
  to every property proved here).
* `datetime` values are modelled as integer minutes `ℤ`; `now_utc()` becomes
  an arbitrary parameter `now : ℤ`, and `timedelta(minutes = m)` is `m`.
-/

namespace BotsMonitor

/-- A random source: an infinite stream of raw natural-number draws. -/
abbrev Rng := ℕ → ℕ

/-- `random.randint(a, b)`: uniform integer in `[a, b]`
(every call site of the source has `a ≤ b`). -/
def randint (a b : ℤ) (g : Rng) (k : ℕ) : ℤ × ℕ :=
  (a + (g k : ℤ) % (b - a + 1), k + 1)

/-- Maps a raw draw into the unit interval `[0, 1)`; the resolution is
irrelevant, only the range matters for the proofs. -/
def unitFrac (n : ℕ) : ℚ := ((n % 1000 : ℕ) : ℚ) / 1000

/-- `random.random()`: a value in `[0, 1)`. -/
def randomUnit (g : Rng) (k : ℕ) : ℚ × ℕ := (unitFrac (g k), k + 1)

/-- `random.uniform(a, b)`: a value in `[a, b]`. -/
def uniform (a b : ℚ) (g : Rng) (k : ℕ) : ℚ × ℕ :=
  (a + (b - a) * unitFrac (g k), k + 1)

/-- Python `round(x, d)`: round to `d` decimal places. -/
def roundTo (d : ℕ) (x : ℚ) : ℚ := ((round (x * 10 ^ d) : ℤ) : ℚ) / 10 ^ d

/-- `random.choice(l)`: picks an element of `l`; the default `d` is never
reached since every call site passes a nonempty literal list. -/
def choice {α : Type} (l : List α) (d : α) (g : Rng) (k : ℕ) : α × ℕ :=
  (l.getD (g k % l.length) d, k + 1)

/-- `TOKENS` (src/main.py line 73). -/
def TOKENS : List String :=
  ["SOL", "BONK", "JUP", "PYTH", "WIF", "GECKO", "ORCA", "MNGO", "RAY", "USDC"]

/-- One entry of the strategy catalog: `{"name": ..., "version": ...}`. -/
structure Strategy where
  name : String
  version : String
deriving DecidableEq

/-- `STRATEGIES` (src/main.py lines 74-80). -/
def STRATEGIES : List Strategy :=
  [⟨"MeanRevert", "1.4.2"⟩, ⟨"Momentum", "2.1.0"⟩, ⟨"ArbX", "0.9.7"⟩,
   ⟨"LLMScout", "0.6.5"⟩, ⟨"GridAlpha", "3.0.1"⟩]

/-- `PLAYERS` (src/main.py line 81), the f-string expanded. -/
def PLAYERS : List String :=
  ["Player-01", "Player-02", "Player-03", "Player-04", "Player-05", "Player-06",
   "Player-07", "Player-08", "Player-09", "Player-10", "Player-11", "Player-12"]

/-- `STATUSES` (src/main.py line 82). -/
def STATUSES : List String := ["Searching", "In Position", "Managing", "Exiting"]

/-- `pct(a, b) = 0.0 if b == 0 else round((a / b) * 100, 2)` (src/main.py line 89). -/
def pct (a b : ℚ) : ℚ := if b = 0 then 0 else roundTo 2 (a / b * 100)

/-- Best/worst asset mover of the secondary block. -/
structure AssetMover where
  token : String
  pct : ℚ
deriving DecidableEq

/-- The `secondary` block of `/api/dashboard/summary`. -/
structure SecondaryBlock where
  last_hour_pnl : ℚ
  at_risk : ℤ
  players_in_count : ℤ
  players_in_pct : ℚ
  concentration : String
  best_asset : AssetMover
  worst_asset : AssetMover
deriving DecidableEq

/-- The `kpis` block of `/api/dashboard/summary`. -/
structure Kpis where
  total_revenue_sol : ℚ
  total_revenue_change_pct : ℚ
  active_positions : ℤ
  active_positions_change_pct : ℚ
  closed_positions : ℤ
  closed_positions_change_pct : ℚ
  win_rate_pct : ℚ
  avg_performance_pct : ℚ
deriving DecidableEq

/-- Response of `/api/dashboard/summary`. -/
structure DashboardSummary where
  timeframe : String
  kpis : Kpis
  secondary : SecondaryBlock
deriving DecidableEq

/-- The first four draws of `dashboard_summary` (src/main.py lines 95-98):
revenue, active positions, closed positions, wins.  Split out so that the
internal `wins` value can be named by the win-rate invariant. -/
structure SummaryCore where
  total_revenue_sol : ℚ
  active : ℤ
  closed : ℤ
  wins : ℤ
deriving DecidableEq

/-- Draw sequence of src/main.py lines 95-98; `wins` is drawn from
`[25, closed]` only when `closed` is nonzero (Python truthiness). -/
def summaryCore (g : Rng) (k : ℕ) : SummaryCore × ℕ :=
  let r := uniform 120 620 g k
  let a := randint 8 42 g r.2
  let c := randint 50 320 g a.2
  let w := if c.1 ≠ 0 then randint 25 c.1 g c.2 else (0, c.2)
  (⟨roundTo 2 r.1, a.1, c.1, w.1⟩, w.2)

/-- `dashboard_summary(timeframe)` (src/main.py lines 93-126), draws taken in
Python evaluation order: the four core draws, then the `secondary` dict
literal, then the remaining `kpis` entries of the return literal. -/
def dashboard_summary (timeframe : String) (g : Rng) (k : ℕ) : DashboardSummary :=
  let core := summaryCore g k
  let win_rate := pct core.1.wins core.1.closed
  let lhp := uniform (-3.5) 6 g core.2
  let ar := randint 0 6 g lhp.2
  let pic := randint 4 (PLAYERS.length : ℤ) g ar.2
  let pip := uniform 25 95 g pic.2
  let conc := choice ["bullish", "bearish", "neutral"] "" g pip.2
  let bt := choice TOKENS "" g conc.2
  let bp := uniform 3 28 g bt.2
  let wt := choice TOKENS "" g bp.2
  let wp := uniform (-22) (-1) g wt.2
  let trc := uniform (-8) 18 g wp.2
  let apc := uniform (-12) 15 g trc.2
  let cpc := uniform (-10) 10 g apc.2
  let avg := uniform (-1.2) 3.2 g cpc.2
  { timeframe := timeframe
    kpis :=
      { total_revenue_sol := core.1.total_revenue_sol
        total_revenue_change_pct := roundTo 2 trc.1
        active_positions := core.1.active
        active_positions_change_pct := roundTo 2 apc.1
        closed_positions := core.1.closed
        closed_positions_change_pct := roundTo 2 cpc.1
        win_rate_pct := win_rate
        avg_performance_pct := roundTo 2 avg.1 }
    secondary :=
      { last_hour_pnl := roundTo 2 lhp.1
        at_risk := ar.1
        players_in_count := pic.1
        players_in_pct := roundTo 1 pip.1
        concentration := conc.1
        best_asset := ⟨bt.1, roundTo 2 bp.1⟩
        worst_asset := ⟨wt.1, roundTo 2 wp.1⟩ } }

/-- One row of `/api/positions/open`. -/
structure OpenRow where
  player : String
  connected : Bool
  status : String
  token : String
  strategy : String
  time_in_position : ℤ
  pnl_sol : ℚ
  pnl_pct : ℚ
  entered_at : ℤ
deriving DecidableEq

/-- One iteration of the `open_positions` loop (src/main.py lines 147-165),
draws in Python evaluation order: player, status, token, strategy,
enter-time offset, `pnl_sol`, `pnl_pct`, then inside the dict literal the
connectivity draw and `time_in_position`. -/
def genOpenRow (now : ℤ) (g : Rng) (k : ℕ) : OpenRow × ℕ :=
  let pl := choice PLAYERS "" g k
  let stt := choice STATUSES "" g pl.2
  let tok := choice TOKENS "" g stt.2
  let str := choice STRATEGIES ⟨"", ""⟩ g tok.2
  let et := randint 10 360 g str.2
  let ps := uniform (-3.2) 6.5 g et.2
  let pp := uniform (-12) 22 g ps.2
  let cn := randomUnit g pp.2
  let tp := randint 5 360 g cn.2
  ({ player := pl.1
     connected := decide (0.08 < cn.1)
     status := stt.1
     token := tok.1
     strategy := str.1.name ++ " " ++ str.1.version
     time_in_position := tp.1
     pnl_sol := roundTo 3 ps.1
     pnl_pct := roundTo 2 pp.1
     entered_at := now - et.1 }, tp.2)

/-- The `open_positions` row loop, `n` iterations. -/
def genOpenRows (now : ℤ) (n : ℕ) (g : Rng) (k : ℕ) : List OpenRow × ℕ :=
  match n with
  | 0 => ([], k)
  | Nat.succ m =>
    let r := genOpenRow now g k
    let rest := genOpenRows now m g r.2
    (r.1 :: rest.1, rest.2)

/-- The `summary` header of `/api/positions/open`. -/
structure OpenHeader where
  searching : ℕ
  in_position : ℕ
  managing : ℕ
  exiting : ℕ
deriving DecidableEq

/-- Response of `/api/positions/open`. -/
structure OpenPositions where
  summary : OpenHeader
  rows : List OpenRow
deriving DecidableEq

/-- `open_positions()` (src/main.py lines 144-172): 12–28 rows, then the
status-bucket header recomputed from the rows. -/
def open_positions (now : ℤ) (g : Rng) (k : ℕ) : OpenPositions :=
  let n := randint 12 28 g k
  let rows := (genOpenRows now n.1.toNat g n.2).1
  { summary :=
      { searching := rows.countP (fun r => r.status == "Searching")
        in_position := rows.countP (fun r => r.status == "In Position")
        managing := rows.countP (fun r => r.status == "Managing")
        exiting := rows.countP (fun r => r.status == "Exiting") }
    rows := rows }

/-- One point `{t, v}` of the live-PnL series. -/
structure PnlPoint where
  t : ℤ
  v : ℚ
deriving DecidableEq

/-- One iteration of the `live_pnl` loop body (src/main.py lines 135-140):
a value from `[-5, 5]`, replaced by an outlier from `[-18, 18]` with
probability 5%. -/
def pnlValue (g : Rng) (k : ℕ) : ℚ × ℕ :=
  let u := uniform (-5) 5 g k
  let r := randomUnit g u.2
  if r.1 < 0.05 then
    let o := uniform (-18) 18 g r.2
    (roundTo 2 o.1, o.2)
  else
    (roundTo 2 u.1, r.2)

/-- The `live_pnl` loop: `n` points at one-minute steps starting at `ts`
(in the source, point `i` has timestamp `start + i`). -/
def genSeries (ts : ℤ) (n : ℕ) (g : Rng) (k : ℕ) : List PnlPoint × ℕ :=
  match n with
  | 0 => ([], k)
  | Nat.succ m =>
    let p := pnlValue g k
    let rest := genSeries (ts + 1) m g p.2
    (⟨ts, p.1⟩ :: rest.1, rest.2)

/-- `live_pnl(points)` (src/main.py lines 129-141); the response is
`{"series": ...}`. -/
def live_pnl (points : ℤ) (now : ℤ) (g : Rng) (k : ℕ) : List PnlPoint :=
  let pts := max 20 (min points 240)
  let start := now - pts
  (genSeries start pts.toNat g k).1

/-- One row of the strategy leaderboards. -/
structure StrategyRow where
  strategy : String
  positions : ℤ
  total_pnl_sol : ℚ
  avg_pct : ℚ
  win_rate : ℚ
deriving DecidableEq

/-- The `best_strategies` sample loop (src/main.py lines 233-242): one row
per catalog entry. -/
def genBestRows (ss : List Strategy) (g : Rng) (k : ℕ) : List StrategyRow × ℕ :=
  match ss with
  | [] => ([], k)
  | s :: rest =>
    let po := randint 50 900 g k
    let tp := uniform 10 520 g po.2
    let ap := uniform 1.5 12 g tp.2
    let wr := uniform 52 78 g ap.2
    let tail := genBestRows rest g wr.2
    ({ strategy := s.name ++ " " ++ s.version
       positions := po.1
       total_pnl_sol := roundTo 2 tp.1
       avg_pct := roundTo 2 ap.1
       win_rate := roundTo 2 wr.1 } :: tail.1, tail.2)

/-- The comparison of `items.sort(key=..., reverse=True)`: descending by
`total_pnl_sol`. -/
def pnlDesc (a b : StrategyRow) : Bool := decide (b.total_pnl_sol ≤ a.total_pnl_sol)

/-- The comparison of `items.sort(key=...)`: ascending by `total_pnl_sol`. -/
def pnlAsc (a b : StrategyRow) : Bool := decide (a.total_pnl_sol ≤ b.total_pnl_sol)

/-- `best_strategies()` (src/main.py lines 230-244): sample all five catalog
entries, sort descending by `total_pnl_sol`, then keep the top 3; the
response is `{"items": ...}`. -/
def best_strategies (g : Rng) (k : ℕ) : List StrategyRow :=
  (List.mergeSort (genBestRows STRATEGIES g k).1 pnlDesc).take 3

/-- One iteration of the `worst_strategies` loop (src/main.py lines 250-260):
a strategy chosen with replacement, with negative PnL ranges. -/
def genWorstRow (g : Rng) (k : ℕ) : StrategyRow × ℕ :=
  let s := choice STRATEGIES ⟨"", ""⟩ g k
  let po := randint 40 600 g s.2
  let tp := uniform (-220) (-5) g po.2
  let ap := uniform (-12) (-0.5) g tp.2
  let wr := uniform 22 48 g ap.2
  ({ strategy := s.1.name ++ " " ++ s.1.version
     positions := po.1
     total_pnl_sol := roundTo 2 tp.1
     avg_pct := roundTo 2 ap.1
     win_rate := roundTo 2 wr.1 }, wr.2)

/-- The `worst_strategies` loop, `n` iterations. -/
def genWorstRows (n : ℕ) (g : Rng) (k : ℕ) : List StrategyRow × ℕ :=
  match n with
  | 0 => ([], k)
  | Nat.succ m =>
    let r := genWorstRow g k
    let rest := genWorstRows m g r.2
    (r.1 :: rest.1, rest.2)

/-- `worst_strategies()` (src/main.py lines 247-262): exactly three sampled
rows, sorted ascending by `total_pnl_sol` (most negative first). -/
def worst_strategies (g : Rng) (k : ℕ) : List StrategyRow :=
  List.mergeSort (genWorstRows 3 g k).1 pnlAsc

/-- One row of `/api/concentration/tokens`. -/
structure ConcRow where
  token : String
  pools : ℤ
  risk : String
  pnl_sol : ℚ
deriving DecidableEq

/-- The `token_concentration` loop over a token list (src/main.py
lines 202-210): one row per token, in order. -/
def genConcRows (ts : List String) (g : Rng) (k : ℕ) : List ConcRow × ℕ :=
  match ts with
  | [] => ([], k)
  | t :: rest =>
    let po := randint 1 14 g k
    let ri := choice ["Low", "Medium", "High"] "" g po.2
    let pn := uniform (-25) 60 g ri.2
    let tail := genConcRows rest g pn.2
    ({ token := t, pools := po.1, risk := ri.1, pnl_sol := roundTo 2 pn.1 } :: tail.1, tail.2)

/-- `token_concentration()` (src/main.py lines 199-211); the response is
`{"items": ...}`. -/
def token_concentration (g : Rng) (k : ℕ) : List ConcRow :=
  (genConcRows TOKENS g k).1

/-- One bar of `/api/performance/tokens`. -/
structure TokenBar where
  token : String
  pnl_sol : ℚ
deriving DecidableEq

/-- The `token_performance` loop over a token list (src/main.py
lines 268-269): one bar per token, in order. -/
def genTokenBars (ts : List String) (g : Rng) (k : ℕ) : List TokenBar × ℕ :=
  match ts with
  | [] => ([], k)
  | t :: rest =>
    let pn := uniform (-40) 80 g k
    let tail := genTokenBars rest g pn.2
    ({ token := t, pnl_sol := roundTo 2 pn.1 } :: tail.1, tail.2)

/-- Response of `/api/performance/tokens`. -/
structure TokenPerformance where
  timeframe : String
  bars : List TokenBar
deriving DecidableEq

/-- `token_performance(timeframe)` (src/main.py lines 265-270). -/
def token_performance (timeframe : String) (g : Rng) (k : ℕ) : TokenPerformance :=
  { timeframe := timeframe, bars := (genTokenBars TOKENS g k).1 }

/-- The action labels of the live feed (src/main.py line 296). -/
def ACTIONS : List String := ["OPEN", "CLOSE", "ALERT", "ADJUST"]

/-- One item of `/api/feed`. -/
structure FeedItem where
  id : ℤ
  player : String
  action : String
  token : String
  timestamp : ℤ
  pnl : Option ℚ
deriving DecidableEq

/-- One iteration of the `live_feed` loop at index `i` (src/main.py
lines 294-309): the timestamp is the base minus `i` times an independent
1–3 minute jitter, and the PnL draw is consumed only for `CLOSE`/`ADJUST`. -/
def genFeedItem (now : ℤ) (i : ℕ) (g : Rng) (k : ℕ) : FeedItem × ℕ :=
  let j := randint 1 3 g k
  let ac := choice ACTIONS "" g j.2
  let pl := choice PLAYERS "" g ac.2
  let tok := choice TOKENS "" g pl.2
  let pn : Option ℚ × ℕ :=
    if ac.1 = "CLOSE" ∨ ac.1 = "ADJUST" then
      let u := uniform (-8) 14 g tok.2
      (some (roundTo 2 u.1), u.2)
    else
      (none, tok.2)
  ({ id := 10000 + i
     player := pl.1
     action := ac.1
     token := tok.1
     timestamp := now - i * j.1
     pnl := pn.1 }, pn.2)

/-- The `live_feed` loop: `n` items starting at loop index `i`. -/
def genFeedItems (now : ℤ) (i n : ℕ) (g : Rng) (k : ℕ) : List FeedItem × ℕ :=
  match n with
  | 0 => ([], k)
  | Nat.succ m =>
    let it := genFeedItem now i g k
    let rest := genFeedItems now (i + 1) m g it.2
    (it.1 :: rest.1, rest.2)

/-- `live_feed(limit)` (src/main.py lines 290-310): `range(limit)` iterates
`max(limit, 0)` times, so a non-positive `limit` yields no items; the
response is `{"items": ...}`. -/
def live_feed (limit : ℤ) (now : ℤ) (g : Rng) (k : ℕ) : List FeedItem :=
  (genFeedItems now 0 limit.toNat g k).1

/-- A concrete random stream under which the feed timestamps go back by
3 minutes at index 1 but only 2 minutes at index 2 (draw 4 is the jitter
draw of loop index 1). -/
def gCex : Rng := fun n => if n = 4 then 2 else 0

/-- One hourly bar `{t, v}` of `/api/monitor/overview`. -/
structure MonitorBar where
  t : ℤ
  v : ℚ
deriving DecidableEq

/-- The `monitor_overview` bar loop (src/main.py lines 276-280): `n` bars at
60-minute steps starting at `ts`, each value from `[-15, 22]` rounded to two
decimals. -/
def genMonitorBars (ts : ℤ) (n : ℕ) (g : Rng) (k : ℕ) : List MonitorBar × ℕ :=
  match n with
  | 0 => ([], k)
  | Nat.succ m =>
    let u := uniform (-15) 22 g k
    let rest := genMonitorBars (ts + 60) m g u.2
    (⟨ts, roundTo 2 u.1⟩ :: rest.1, rest.2)

/-- The `stats` block of `/api/monitor/overview`. -/
structure MonitorStats where
  net_pnl : ℚ
  total_positions : ℤ
  profitable_hours : ℕ
  avg_per_hour : ℚ
deriving DecidableEq

/-- Response of `/api/monitor/overview`. -/
structure MonitorOverview where
  bars : List MonitorBar
  stats : MonitorStats
deriving DecidableEq

/-- `monitor_overview()` (src/main.py lines 273-287): 24 hourly bars for the
last 24 hours, with stats derived from the generated bars. -/
def monitor_overview (now : ℤ) (g : Rng) (k : ℕ) : MonitorOverview :=
  let b := genMonitorBars (now - 1440) 24 g k
  let bars := b.1
  let tp := randint 60 420 g b.2
  { bars := bars
    stats :=
      { net_pnl := roundTo 2 (bars.map (fun x => x.v)).sum
        total_positions := tp.1
        profitable_hours := bars.countP (fun x => decide (0 < x.v))
        avg_per_hour := roundTo 2 ((bars.map (fun x => x.v)).sum / bars.length) } }

/-- `random.randint(a, b)` lands in `[a, b]` whenever `a ≤ b`. -/
theorem randint_le {a b : ℤ} (h : a ≤ b) (g : Rng) (k : ℕ) :
    a ≤ (randint a b g k).1 ∧ (randint a b g k).1 ≤ b := by
  have hm : (0 : ℤ) < b - a + 1 := by omega
  have h1 : 0 ≤ (g k : ℤ) % (b - a + 1) := Int.emod_nonneg _ (by omega)
  have h2 : (g k : ℤ) % (b - a + 1) < b - a + 1 := Int.emod_lt_of_pos _ hm
  dsimp only [randint]
  omega

/-- `List.getD` at an in-range index returns an element of the list. -/
theorem getD_mem_of_lt {α : Type} :
    ∀ (l : List α) (i : ℕ) (d : α), i < l.length → l.getD i d ∈ l
  | a :: t, 0, _, _ => List.mem_cons_self a t
  | a :: t, Nat.succ i, d, h =>
      List.mem_cons_of_mem a (getD_mem_of_lt t i d (by simpa using h))

/-- `random.choice` of a nonempty list returns an element of that list. -/
theorem choice_mem {α : Type} (l : List α) (d : α) (g : Rng) (k : ℕ) (h : l ≠ []) :
    (choice l d g k).1 ∈ l := by
  have hl : 0 < l.length := List.length_pos.mpr h
  exact getD_mem_of_lt l _ d (Nat.mod_lt _ hl)

/-- Every generated open-position row carries one of the four status labels. -/
theorem genOpenRows_status_mem (now : ℤ) (n : ℕ) (g : Rng) (k : ℕ) :
    ∀ r ∈ (genOpenRows now n g k).1, r.status ∈ STATUSES := by
  induction n generalizing k with
  | zero => simp [genOpenRows]
  | succ m ih =>
    intro r hr
    simp only [genOpenRows, List.mem_cons] at hr
    rcases hr with h | h
    · subst h
      exact choice_mem STATUSES "" g _ (by simp [STATUSES])
    · exact ih _ r h

/-- A list of rows whose statuses all lie in `STATUSES` is partitioned by the
four status-bucket counts. -/
theorem countP_statuses (l : List OpenRow) (h : ∀ r ∈ l, r.status ∈ STATUSES) :
    l.countP (fun r => r.status == "Searching")
      + l.countP (fun r => r.status == "In Position")
      + l.countP (fun r => r.status == "Managing")
      + l.countP (fun r => r.status == "Exiting") = l.length := by
  induction l with
  | nil => simp
  | cons r t ih =>
    have hr := h r (List.mem_cons_self r t)
    have ht := ih (fun x hx => h x (List.mem_cons_of_mem r hx))
    simp only [STATUSES, List.mem_cons, List.not_mem_nil, or_false] at hr
    simp only [List.countP_cons, List.length_cons]
    rcases hr with h1 | h1 | h1 | h1 <;> simp +decide [h1] <;> omega

/-- `genSeries` produces exactly `n` points. -/
theorem genSeries_length (ts : ℤ) (n : ℕ) (g : Rng) (k : ℕ) :
    (genSeries ts n g k).1.length = n := by
  induction n generalizing ts k with
  | zero => rfl
  | succ m ih => simp [genSeries, ih]

/-- The first point of a `genSeries` run carries the starting timestamp. -/
theorem genSeries_head_t (ts : ℤ) (n : ℕ) (g : Rng) (k : ℕ) :
    ∀ p ∈ (genSeries ts n g k).1.head?, p.t = ts := by
  intro p hp
  cases n with
  | zero => simp [genSeries] at hp
  | succ m =>
    simp only [genSeries, List.head?_cons, Option.mem_def, Option.some_inj] at hp
    simp [← hp]

/-- Consecutive `genSeries` timestamps differ by exactly one minute. -/
theorem genSeries_chain (ts : ℤ) (n : ℕ) (g : Rng) (k : ℕ) :
    List.Chain' (fun a b => b.t = a.t + 1) (genSeries ts n g k).1 := by
  induction n generalizing ts k with
  | zero => simp [genSeries]
  | succ m ih =>
    simp only [genSeries]
    refine List.chain'_cons'.mpr ⟨?_, ih (ts + 1) (pnlValue g k).2⟩
    intro y hy
    have := genSeries_head_t (ts + 1) m g (pnlValue g k).2 y hy
    simp [this]

/-- `unitFrac` is nonnegative. -/
theorem unitFrac_nonneg (n : ℕ) : 0 ≤ unitFrac n := by
  unfold unitFrac
  positivity

/-- `unitFrac` never exceeds one. -/
theorem unitFrac_le_one (n : ℕ) : unitFrac n ≤ 1 := by
  unfold unitFrac
  rw [div_le_one (by norm_num)]
  exact_mod_cast (Nat.mod_lt n (by norm_num : (0 : ℕ) < 1000)).le

/-- `random.uniform(a, b)` lands in `[a, b]` whenever `a ≤ b`. -/
theorem uniform_mem {a b : ℚ} (h : a ≤ b) (g : Rng) (k : ℕ) :
    a ≤ (uniform a b g k).1 ∧ (uniform a b g k).1 ≤ b := by
  dsimp only [uniform]
  constructor
  · have := mul_nonneg (sub_nonneg.2 h) (unitFrac_nonneg (g k))
    linarith
  · have := mul_le_of_le_one_right (sub_nonneg.2 h) (unitFrac_le_one (g k))
    linarith

/-- Rounding to `d` decimals moves a value up by at most half a unit in the
last place. -/
theorem roundTo_le_add (d : ℕ) (x : ℚ) : roundTo d x ≤ x + 1 / (2 * 10 ^ d) := by
  have hp : (0 : ℚ) < 10 ^ d := by positivity
  have h1 : ((round (x * 10 ^ d) : ℤ) : ℚ) ≤ x * 10 ^ d + 1 / 2 := by
    have h := abs_le.mp (abs_sub_round (x * 10 ^ d))
    linarith [h.1]
  calc roundTo d x = ((round (x * 10 ^ d) : ℤ) : ℚ) / 10 ^ d := rfl
    _ ≤ (x * 10 ^ d + 1 / 2) / 10 ^ d := (div_le_div_iff_of_pos_right hp).mpr h1
    _ = x + 1 / (2 * 10 ^ d) := by field_simp; ring

/-- `genBestRows` samples one row per catalog entry. -/
theorem genBestRows_length (ss : List Strategy) (g : Rng) (k : ℕ) :
    (genBestRows ss g k).1.length = ss.length := by
  induction ss generalizing k with
  | nil => rfl
  | cons s rest ih => simp [genBestRows, ih]

/-- `genWorstRows` samples exactly `n` rows. -/
theorem genWorstRows_length (n : ℕ) (g : Rng) (k : ℕ) :
    (genWorstRows n g k).1.length = n := by
  induction n generalizing k with
  | zero => rfl
  | succ m ih => simp [genWorstRows, ih]

/-- Every sampled worst-strategy row has strictly negative `total_pnl_sol`. -/
theorem genWorstRows_neg (n : ℕ) (g : Rng) (k : ℕ) :
    ∀ r ∈ (genWorstRows n g k).1, r.total_pnl_sol < 0 := by
  induction n generalizing k with
  | zero => simp [genWorstRows]
  | succ m ih =>
    intro r hr
    simp only [genWorstRows, List.mem_cons] at hr
    rcases hr with h | h
    · subst h
      have hu := (uniform_mem (by norm_num : (-220 : ℚ) ≤ -5) g
        (randint 40 600 g (choice STRATEGIES ⟨"", ""⟩ g k).2).2).2
      have hb := roundTo_le_add 2
        (uniform (-220) (-5) g (randint 40 600 g (choice STRATEGIES ⟨"", ""⟩ g k).2).2).1
      norm_num at hb
      show roundTo 2
        (uniform (-220) (-5) g (randint 40 600 g (choice STRATEGIES ⟨"", ""⟩ g k).2).2).1 < 0
      linarith
    · exact ih _ r h

/-- The descending comparison is transitive. -/
theorem pnlDesc_trans : ∀ a b c : StrategyRow, pnlDesc a b → pnlDesc b c → pnlDesc a c := by
  intro a b c h1 h2
  simp only [pnlDesc, decide_eq_true_eq] at h1 h2 ⊢
  exact le_trans h2 h1

/-- The descending comparison is total. -/
theorem pnlDesc_total : ∀ a b : StrategyRow, pnlDesc a b || pnlDesc b a := by
  intro a b
  simp only [pnlDesc, Bool.or_eq_true, decide_eq_true_eq]
  exact le_total b.total_pnl_sol a.total_pnl_sol

/-- The ascending comparison is transitive. -/
theorem pnlAsc_trans : ∀ a b c : StrategyRow, pnlAsc a b → pnlAsc b c → pnlAsc a c := by
  intro a b c h1 h2
  simp only [pnlAsc, decide_eq_true_eq] at h1 h2 ⊢
  exact le_trans h1 h2

/-- The ascending comparison is total. -/
theorem pnlAsc_total : ∀ a b : StrategyRow, pnlAsc a b || pnlAsc b a := by
  intro a b
  simp only [pnlAsc, Bool.or_eq_true, decide_eq_true_eq]
  exact le_total a.total_pnl_sol b.total_pnl_sol

/-- `genFeedItems` produces exactly `n` items. -/
theorem genFeedItems_length (now : ℤ) (i n : ℕ) (g : Rng) (k : ℕ) :
    (genFeedItems now i n g k).1.length = n := by
  induction n generalizing i k with
  | zero => rfl
  | succ m ih => simp [genFeedItems, ih]

/-- A feed item's `id` and `timestamp` in terms of its loop index. -/
theorem genFeedItem_fields (now : ℤ) (i : ℕ) (g : Rng) (k : ℕ) :
    (genFeedItem now i g k).1.id = 10000 + (i : ℤ) ∧
    (genFeedItem now i g k).1.timestamp = now - (i : ℤ) * (randint 1 3 g k).1 :=
  ⟨rfl, rfl⟩

/-- A feed item's PnL is present exactly for the `CLOSE` and `ADJUST`
actions. -/
theorem genFeedItem_pnl (now : ℤ) (i : ℕ) (g : Rng) (k : ℕ) :
    ((genFeedItem now i g k).1.action = "OPEN" ∨ (genFeedItem now i g k).1.action = "ALERT" →
      (genFeedItem now i g k).1.pnl = none) ∧
    ((genFeedItem now i g k).1.action = "CLOSE" ∨ (genFeedItem now i g k).1.action = "ADJUST" →
      ((genFeedItem now i g k).1.pnl).isSome = true) := by
  have hm : g (k + 1) % 4 = 0 ∨ g (k + 1) % 4 = 1 ∨ g (k + 1) % 4 = 2 ∨ g (k + 1) % 4 = 3 := by
    omega
  rcases hm with h | h | h | h <;>
    simp +decide [genFeedItem, choice, randint, ACTIONS, h,
      List.getD_cons_zero, List.getD_cons_succ]

/-- Every generated feed item's PnL presence matches its action. -/
theorem genFeedItems_mem_pnl (now : ℤ) (i n : ℕ) (g : Rng) (k : ℕ) :
    ∀ it ∈ (genFeedItems now i n g k).1,
      ((it.action = "OPEN" ∨ it.action = "ALERT") → it.pnl = none) ∧
      ((it.action = "CLOSE" ∨ it.action = "ADJUST") → (it.pnl).isSome = true) := by
  induction n generalizing i k with
  | zero => simp [genFeedItems]
  | succ m ih =>
    intro it hit
    simp only [genFeedItems, List.mem_cons] at hit
    rcases hit with h | h
    · subst h
      exact genFeedItem_pnl now i g k
    · exact ih (i + 1) _ it h

/-- Every generated feed item's timestamp lies between `now - 3·idx` and
`now - idx`, where `idx = id - 10000` is its loop index. -/
theorem genFeedItems_mem_bounds (now : ℤ) (i n : ℕ) (g : Rng) (k : ℕ) :
    ∀ it ∈ (genFeedItems now i n g k).1,
      10000 ≤ it.id ∧ now - 3 * (it.id - 10000) ≤ it.timestamp ∧
        it.timestamp ≤ now - (it.id - 10000) := by
  induction n generalizing i k with
  | zero => simp [genFeedItems]
  | succ m ih =>
    intro it hit
    simp only [genFeedItems, List.mem_cons] at hit
    rcases hit with h | h
    · subst h
      obtain ⟨hid, hts⟩ := genFeedItem_fields now i g k
      obtain ⟨hj1, hj3⟩ := randint_le (by norm_num : (1 : ℤ) ≤ 3) g k
      have hi : (0 : ℤ) ≤ (i : ℤ) := Int.natCast_nonneg i
      have hup := mul_le_mul_of_nonneg_left hj3 hi
      have hlo := mul_le_mul_of_nonneg_left hj1 hi
      rw [hid, hts]
      refine ⟨by omega, by linarith, by linarith⟩
    · exact ih (i + 1) _ it h

/-- `genConcRows` emits the given token list verbatim, one row per token. -/
theorem genConcRows_tokens (ts : List String) (g : Rng) (k : ℕ) :
    ((genConcRows ts g k).1.map (fun r => r.token)) = ts := by
  induction ts generalizing k with
  | nil => rfl
  | cons t rest ih => simp [genConcRows, ih]

/-- `genTokenBars` emits the given token list verbatim, one bar per token. -/
theorem genTokenBars_tokens (ts : List String) (g : Rng) (k : ℕ) :
    ((genTokenBars ts g k).1.map (fun r => r.token)) = ts := by
  induction ts generalizing k with
  | nil => rfl
  | cons t rest ih => simp [genTokenBars, ih]

/-- `genMonitorBars` produces exactly `n` bars. -/
theorem genMonitorBars_length (ts : ℤ) (n : ℕ) (g : Rng) (k : ℕ) :
    (genMonitorBars ts n g k).1.length = n := by
  induction n generalizing ts k with
  | zero => rfl
  | succ m ih => simp [genMonitorBars, ih]

/-- The internal `wins` draw of `dashboard_summary` satisfies
`0 ≤ wins ≤ closed`. -/
theorem summaryCore_wins_bounds (g : Rng) (k : ℕ) :
    0 ≤ (summaryCore g k).1.wins ∧ (summaryCore g k).1.wins ≤ (summaryCore g k).1.closed := by
  simp only [summaryCore]
  obtain ⟨hc1, hc2⟩ :=
    randint_le (by norm_num : (50 : ℤ) ≤ 320) g (randint 8 42 g (uniform 120 620 g k).2).2
  set c := randint 50 320 g (randint 8 42 g (uniform 120 620 g k).2).2 with hc
  rw [if_pos (by omega : c.1 ≠ 0)]
  obtain ⟨hw1, hw2⟩ := randint_le (by omega : (25 : ℤ) ≤ c.1) g c.2
  exact ⟨by omega, by omega⟩

/-- C3 (counterexample): under the stream `gCex` the feed timestamps are not
non-increasing — item 1 is at `base - 3` but item 2 is at `base - 2`. -/
theorem live_feed_timestamps_not_monotone :
    ¬ List.Chain' (fun a b => b.timestamp ≤ a.timestamp) (live_feed 3 0 gCex 0) := by
  intro h
  have he : (live_feed 3 0 gCex 0).map (fun it => it.timestamp) = [0, -3, -2] := by decide
  have h2 := (@List.chain'_map ℤ FeedItem (fun x y => y ≤ x)
    (fun it => it.timestamp) (live_feed 3 0 gCex 0)).mpr h
  rw [he] at h2
  simp [List.chain'_cons] at h2

/-- C3 (amended): each feed item's timestamp is the shared base minus
`idx` times an independent random 1–3 minute jitter, where `idx = id - 10000`
is the item's loop index; hence `base - 3·idx ≤ timestamp ≤ base - idx`, but
consecutive timestamps need not be non-increasing. -/
theorem live_feed_timestamp_bounds (limit now : ℤ) (g : Rng) (k : ℕ) :
    (live_feed limit now g k).Forall (fun it =>
      10000 ≤ it.id ∧ now - 3 * (it.id - 10000) ≤ it.timestamp ∧
        it.timestamp ≤ now - (it.id - 10000)) := by
  rw [List.forall_iff_forall_mem]
  exact genFeedItems_mem_bounds now 0 _ g k

/-- C7: feed items with action `OPEN` or `ALERT` carry no `pnl`; items with
action `CLOSE` or `ADJUST` carry a numeric `pnl`. -/
theorem live_feed_pnl_presence (limit now : ℤ) (g : Rng) (k : ℕ) :
    (live_feed limit now g k).Forall (fun it =>
      ((it.action = "OPEN" ∨ it.action = "ALERT") → it.pnl = none) ∧
      ((it.action = "CLOSE" ∨ it.action = "ADJUST") → (it.pnl).isSome = true)) := by
  rw [List.forall_iff_forall_mem]
  exact genFeedItems_mem_pnl now 0 _ g k

/-- C10: `live_feed` returns `max(limit, 0)` items — in particular the empty
list, with no error, for every `limit ≤ 0`. -/
theorem live_feed_limit_behavior (limit now : ℤ) (g : Rng) (k : ℕ) :
    ((live_feed limit now g k).length : ℤ) = max limit 0 ∧
    (live_feed limit now g k = [] ↔ limit ≤ 0) := by
  have hl : (live_feed limit now g k).length = limit.toNat :=
    genFeedItems_length now 0 _ g k
  constructor
  · rw [hl]
    omega
  · rw [← List.length_eq_zero, hl]
    omega

/-- C4: `pct(a, 0)` is `0.0` (no division error is possible in the embedding:
`pct` is total), and for `b ≠ 0`, `pct(a, b)` is `a / b * 100` rounded to two
decimal places. -/
theorem pct_zero_denom_and_formula (a b : ℚ) :
    pct a 0 = 0 ∧ (b ≠ 0 → pct a b = roundTo 2 (a / b * 100)) := by
  constructor
  · simp [pct]
  · intro hb
    simp [pct, hb]

/-- Witness for C4 at `a = 1`, `b = 2`. -/
theorem pct_zero_denom_and_formula_witness :
    pct 1 2 = roundTo 2 (1 / 2 * 100) :=
  (pct_zero_denom_and_formula 1 2).2 (by norm_num)

/-- C1: in every `open_positions` response the four header buckets sum to the
number of rows, and each bucket equals the count of rows carrying that
status label. -/
theorem open_positions_header_consistent (now : ℤ) (g : Rng) (k : ℕ) :
    (open_positions now g k).summary.searching + (open_positions now g k).summary.in_position
        + (open_positions now g k).summary.managing + (open_positions now g k).summary.exiting
      = (open_positions now g k).rows.length ∧
    (open_positions now g k).summary.searching
      = (open_positions now g k).rows.countP (fun r => r.status == "Searching") ∧
    (open_positions now g k).summary.in_position
      = (open_positions now g k).rows.countP (fun r => r.status == "In Position") ∧
    (open_positions now g k).summary.managing
      = (open_positions now g k).rows.countP (fun r => r.status == "Managing") ∧
    (open_positions now g k).summary.exiting
      = (open_positions now g k).rows.countP (fun r => r.status == "Exiting") := by
  refine ⟨?_, rfl, rfl, rfl, rfl⟩
  exact countP_statuses _
    (genOpenRows_status_mem now (randint 12 28 g k).1.toNat g (randint 12 28 g k).2)

/-- C2: the `live_pnl` series has exactly `max 20 (min points 240)` points —
so `points = 10` yields 20 and `points = 500` yields 240 — and its timestamps
increase by exactly one minute from entry to entry. -/
theorem live_pnl_length_and_step (points now : ℤ) (g : Rng) (k : ℕ) :
    ((live_pnl points now g k).length : ℤ) = max 20 (min points 240) ∧
    List.Chain' (fun a b => b.t = a.t + 1) (live_pnl points now g k) := by
  constructor
  · simp only [live_pnl, genSeries_length]
    have h20 : (20 : ℤ) ≤ max 20 (min points 240) := le_max_left _ _
    omega
  · exact genSeries_chain _ _ g k

/-- C5: every `monitor_overview` response has exactly 24 bars; `net_pnl` is
the rounded sum of the bar values, `profitable_hours` counts the bars with
strictly positive value, and `avg_per_hour` is the rounded average — all
derived from the generated series. -/
theorem monitor_overview_stats_consistent (now : ℤ) (g : Rng) (k : ℕ) :
    (monitor_overview now g k).bars.length = 24 ∧
    (monitor_overview now g k).stats.net_pnl
      = roundTo 2 ((monitor_overview now g k).bars.map (fun x => x.v)).sum ∧
    (monitor_overview now g k).stats.profitable_hours
      = (monitor_overview now g k).bars.countP (fun x => decide (0 < x.v)) ∧
    (monitor_overview now g k).stats.avg_per_hour
      = roundTo 2 (((monitor_overview now g k).bars.map (fun x => x.v)).sum / 24) := by
  have hlen : (monitor_overview now g k).bars.length = 24 := genMonitorBars_length _ 24 g k
  refine ⟨hlen, rfl, rfl, ?_⟩
  show roundTo 2 (((monitor_overview now g k).bars.map (fun x => x.v)).sum
      / ((monitor_overview now g k).bars.length : ℚ)) = _
  rw [hlen]
  norm_num

/-- C9: `token_concentration` and `token_performance` each return exactly one
row per entry of the 10-token reference table, in table order; the table has
no duplicates, so all 10 tokens are covered exactly once. -/
theorem token_endpoints_cover_reference (tf : String) (g g' : Rng) (k k' : ℕ) :
    ((token_concentration g k).map (fun r => r.token)) = TOKENS ∧
    ((token_performance tf g' k').bars.map (fun r => r.token)) = TOKENS ∧
    TOKENS.length = 10 ∧ TOKENS.Nodup :=
  ⟨genConcRows_tokens TOKENS g k, genTokenBars_tokens TOKENS g' k', by decide, by decide⟩

/-- C6: `best_strategies` returns exactly 3 items, obtained by sorting the
full 5-entry sample descending by `total_pnl_sol` and only then truncating;
`worst_strategies` returns exactly 3 items sorted ascending, every one with
strictly negative `total_pnl_sol`. -/
theorem strategies_leaderboards_sorted (g g' : Rng) (k k' : ℕ) :
    (best_strategies g k).length = 3 ∧
    (genBestRows STRATEGIES g k).1.length = 5 ∧
    best_strategies g k = (List.mergeSort (genBestRows STRATEGIES g k).1 pnlDesc).take 3 ∧
    List.Pairwise (fun a b => b.total_pnl_sol ≤ a.total_pnl_sol) (best_strategies g k) ∧
    (worst_strategies g' k').length = 3 ∧
    List.Pairwise (fun a b => a.total_pnl_sol ≤ b.total_pnl_sol) (worst_strategies g' k') ∧
    (worst_strategies g' k').Forall (fun r => r.total_pnl_sol < 0) := by
  have hb5 : (genBestRows STRATEGIES g k).1.length = 5 := by
    rw [genBestRows_length]
    rfl
  refine ⟨?_, hb5, rfl, ?_, ?_, ?_, ?_⟩
  · simp [best_strategies, List.length_take, List.length_mergeSort, hb5]
  · have hs := List.sorted_mergeSort pnlDesc_trans pnlDesc_total (genBestRows STRATEGIES g k).1
    exact (List.Pairwise.sublist (List.take_sublist 3 _) hs).imp fun h => of_decide_eq_true h
  · simp [worst_strategies, List.length_mergeSort, genWorstRows_length]
  · have hs := List.sorted_mergeSort pnlAsc_trans pnlAsc_total (genWorstRows 3 g' k').1
    exact hs.imp fun h => of_decide_eq_true h
  · rw [List.forall_iff_forall_mem]
    intro r hr
    exact genWorstRows_neg 3 g' k' r (List.mem_mergeSort.mp hr)

/-- C8: in every `dashboard_summary` response the sampled `wins` satisfies
`0 ≤ wins ≤ closed_positions`, and `win_rate_pct` is `pct wins closed_positions`. -/
theorem dashboard_summary_win_rate_consistent (tf : String) (g : Rng) (k : ℕ) :
    0 ≤ (summaryCore g k).1.wins ∧
    (summaryCore g k).1.wins ≤ (summaryCore g k).1.closed ∧
    (dashboard_summary tf g k).kpis.win_rate_pct
      = pct (summaryCore g k).1.wins (summaryCore g k).1.closed ∧
    (dashboard_summary tf g k).kpis.closed_positions = (summaryCore g k).1.closed := by
  obtain ⟨h1, h2⟩ := summaryCore_wins_bounds g k
  exact ⟨h1, h2, rfl, rfl⟩

end BotsMonitor
